import Mathlib

/-!
Shallow embedding of the object-level permission engine of the
`olppoc` Django proof of concept: constraint compilation and the
permission-name scheme (`perms/utils.py`), the authentication backend
(`perms/backends.py`), the grant model (`perms/models.py`), the
restricted queryset (`perms/querysets.py`) and the transactional
safe-mutation helper (`perms/utils.py`).

Stored rows are modelled as records of named scalar attributes, the
grant store and the model tables as lists, and the stateful pieces
(the per-user permission cache, the number of grant-store queries a
call issues, the database before and after a transaction) as explicit
values threaded through the functions.
-/

/-- A scalar attribute value: a JSON number (an integer in this
repository, where numeric values are primary keys) or a string. -/
inductive Prim where
  | int (n : Int)
  | str (s : String)
deriving DecidableEq

/-- A right-hand side of one constraint entry: a scalar, or a JSON
array of scalars as used by `__in` lookups. -/
inductive Value where
  | prim (p : Prim)
  | list (ps : List Prim)
deriving DecidableEq

/-- Characters of a string split at every occurrence of the separator
character, mirroring Python `str.split(sep)` for a one-character
separator: the result always has one more element than there are
separators, and empty pieces are kept. -/
def splitCh (c : Char) : List Char → List (List Char)
  | [] => [[]]
  | x :: xs =>
    match splitCh c xs with
    | [] => [[]]
    | r :: rs => if x = c then [] :: r :: rs else (x :: r) :: rs

/-- Split at the first occurrence of the separator character, mirroring
Python `str.split(sep, 1)`; `none` when the separator does not occur
(the one-element result that makes a two-name unpacking raise). -/
def splitFirst (c : Char) : List Char → Option (List Char × List Char)
  | [] => none
  | x :: xs =>
    if x = c then some ([], xs)
    else
      match splitFirst c xs with
      | none => none
      | some (a, b) => some (x :: a, b)

/-- Split a Django lookup key at the first `"__"`: the field name and,
when present, the lookup suffix. -/
def splitDunder : List Char → List Char × Option (List Char)
  | [] => ([], none)
  | '_' :: '_' :: rest => ([], some rest)
  | x :: rest =>
    let r := splitDunder rest
    (x :: r.1, r.2)

/-- Whether the first list is a prefix of the second. -/
def leadsWith : List Char → List Char → Bool
  | [], _ => true
  | _ :: _, [] => false
  | a :: as, b :: bs => a == b && leadsWith as bs

/-- Whether `sub` occurs as a contiguous sublist of the second argument
(Python `sub in s` for strings). -/
def containsSub (sub : List Char) : List Char → Bool
  | [] => sub.isEmpty
  | x :: t => leadsWith sub (x :: t) || containsSub sub t

/-- A stored row: a primary key and the named scalar attributes. -/
structure Rec where
  pk : Nat
  fields : List (String × Prim)
deriving DecidableEq

/-- The value of a named attribute of a stored row. -/
def lookupField (r : Rec) (f : String) : Option Prim :=
  match r.fields.find? (fun kv => kv.1 == f) with
  | some kv => some kv.2
  | none => none

/-- Evaluate one Django kwarg condition `key=v` against a stored row: a
bare field name is an equality test, `field__in` a membership test,
`field__contains` and `field__icontains` a case-sensitive respectively
case-insensitive substring test — the lookups the repository's
constraints use. Any other shape matches nothing. -/
def condMatches (r : Rec) (key : String) (v : Value) : Bool :=
  match splitDunder key.data with
  | (f, none) =>
    match lookupField r ⟨f⟩, v with
    | some p, .prim q => p == q
    | _, _ => false
  | (f, some op) =>
    if op = "in".data then
      match lookupField r ⟨f⟩, v with
      | some p, .list ps => ps.contains p
      | _, _ => false
    else if op = "contains".data then
      match lookupField r ⟨f⟩, v with
      | some (.str s), .prim (.str t) => containsSub t.data s.data
      | _, _ => false
    else if op = "icontains".data then
      match lookupField r ⟨f⟩, v with
      | some (.str s), .prim (.str t) =>
        containsSub (t.data.map Char.toLower) (s.data.map Char.toLower)
      | _, _ => false
    else false

/-- One constraint map: a dict from field lookup to comparison value,
all entries conjoined. -/
abbrev ConstraintMap := List (String × Value)

/-- A row satisfies every condition of the constraint map. -/
def mapHolds (r : Rec) (m : ConstraintMap) : Bool :=
  m.all (fun kv => condMatches r kv.1 kv.2)

/-- Python truthiness of one entry of a constraint list: `None` and the
empty dict are falsy. -/
def constraintTruthy : Option ConstraintMap → Bool
  | none => false
  | some m => !m.isEmpty

/-- The `Q` objects `get_filter_from_constraints` builds are flat
disjunctions of kwarg leaves: `params` starts as the empty `Q()`
(the identity of `|`) and only ever receives `Q(**constraint)` leaves
by `|=`. They are represented in that normal form — a list of
constraint maps, the empty list standing for the empty `Q()`. -/
abbrev QFilter := List ConstraintMap

/-- Interpretation of a compiled filter against a stored row: the empty
`Q()` matches every row, otherwise some leaf must hold (OR across
leaves, AND inside each leaf). -/
def qMatches (r : Rec) (q : QFilter) : Bool :=
  q.isEmpty || q.any (fun m => mapHolds r m)

/-- Embedding of `get_filter_from_constraints` (`perms/utils.py`):
`params |= Q(**constraint)` for every truthy entry, tracking
`has_constraints`, and the empty `Q()` when no entry was truthy. -/
def get_filter_from_constraints (constraints : List (Option ConstraintMap)) : QFilter :=
  let st := constraints.foldl
    (fun params constraint =>
      if constraintTruthy constraint then (params.1 ++ [constraint.getD []], true)
      else params)
    (([], false) : QFilter × Bool)
  if st.2 then st.1 else []

/-- A resource type descriptor: Django `ContentType` with its
`app_label` and lowercased `model` name. -/
structure ContentType where
  app_label : String
  model : String
deriving DecidableEq

/-- Embedding of `resolve_perm` (`perms/utils.py`): split the name on
`"."` into exactly two parts, then split the second part at its first
`"_"`; `none` models the `ValueError` raised on any other shape. -/
def resolve_perm (perm : String) : Option (String × String × String) :=
  match splitCh '.' perm.data with
  | [app_label, action_model] =>
    match splitFirst '_' action_model with
    | some (action, model_name) => some (⟨app_label⟩, ⟨action⟩, ⟨model_name⟩)
    | none => none
  | _ => none

/-- Embedding of `get_perm_name` (`perms/utils.py`). -/
def get_perm_name (ct : ContentType) (action : String) : String :=
  ct.app_label ++ "." ++ action ++ "_" ++ ct.model

/-- The JSON `constraints` column of a grant: SQL `NULL`, a single
bare map, or an array whose entries are maps or `null`. -/
inductive ConstraintsField where
  | null
  | single (m : ConstraintMap)
  | array (ms : List (Option ConstraintMap))
deriving DecidableEq

/-- A persisted `ObjectPermission` grant (`perms/models.py`). Subjects
and groups are stored as ids of the referenced users and groups. -/
structure ObjectPermission where
  id : Nat
  name : String
  enabled : Bool
  object_types : List ContentType
  groups : List Nat
  users : List Nat
  actions : List String
  constraints : ConstraintsField
deriving DecidableEq

/-- Embedding of `ObjectPermission.list_constraints`: a stored value
that is not a JSON list — `null` or a single map — is wrapped into a
one-element list. -/
def ObjectPermission.list_constraints (p : ObjectPermission) : List (Option ConstraintMap) :=
  match p.constraints with
  | .null => [none]
  | .single m => [some m]
  | .array ms => ms

/-- The external store: the grant table and one row table per content
type. -/
structure Database where
  objectpermissions : List ObjectPermission
  tables : List (ContentType × List Rec)
deriving DecidableEq

/-- The rows of the table of a content type. -/
def tableOf (db : Database) (ct : ContentType) : List Rec :=
  match db.tables.find? (fun e => e.1 == ct) with
  | some e => e.2
  | none => []

/-- The per-user permission map: permission name to the merged
constraint lists of every covering grant, in insertion order. -/
abbrev PermMap := List (String × List (Option ConstraintMap))

instance : DecidableEq (String × List (Option ConstraintMap)) :=
  inferInstance

instance : DecidableEq PermMap :=
  inferInstance

/-- The entry of a permission name, when present. -/
def permLookup (m : PermMap) (k : String) : Option (List (Option ConstraintMap)) :=
  match m.find? (fun kv => kv.1 == k) with
  | some kv => some kv.2
  | none => none

/-- Whether the map has an entry for the permission name. -/
def permHasKey (m : PermMap) (k : String) : Bool :=
  (permLookup m k).isSome

/-- `defaultdict(list)` update: extend the entry of `k` in place,
inserting the key at the end on first use. -/
def permExtend (m : PermMap) (k : String) (v : List (Option ConstraintMap)) : PermMap :=
  match m with
  | [] => [(k, v)]
  | kv :: rest => if kv.1 == k then (kv.1, kv.2 ++ v) :: rest else kv :: permExtend rest k v

/-- A principal: Django user attributes plus the `_object_perm_cache`
attribute the backend stores on the instance (`none` when the
attribute has never been set). -/
structure User where
  id : Nat
  is_active : Bool
  is_anonymous : Bool
  is_superuser : Bool
  groups : List Nat
  object_perm_cache : Option PermMap
deriving DecidableEq

/-- Django `is_authenticated`: real users are authenticated, the
anonymous sentinel is not. -/
def User.is_authenticated (u : User) : Bool := !u.is_anonymous

/-- The subject filter `Q(users=user) | Q(groups__user=user)` of
`ObjectPermissionBackend.get_permission_filter`. -/
def permCovers (u : User) (p : ObjectPermission) : Bool :=
  p.users.contains u.id || p.groups.any (fun g => u.groups.contains g)

/-- Insertion step of sorting grants by id. -/
def insertById (p : ObjectPermission) : List ObjectPermission → List ObjectPermission
  | [] => [p]
  | q :: qs => if p.id ≤ q.id then p :: q :: qs else q :: insertById p qs

/-- `order_by('id')` on a list of grant rows. -/
def sortById : List ObjectPermission → List ObjectPermission
  | [] => []
  | p :: ps => insertById p (sortById ps)

/-- Embedding of `ObjectPermissionBackend.get_object_permissions`:
collect the enabled grants covering the user, ordered by id, and
extend the accumulator entry of every derived permission name —
`f"{object_type.app_label}.{action}_{object_type.model}"` — with the
grant's constraint list. -/
def get_object_permissions (db : Database) (u : User) : PermMap :=
  let ops := sortById ((db.objectpermissions).filter (fun p => permCovers u p && p.enabled))
  ops.foldl
    (fun perms p =>
      p.object_types.foldl
        (fun perms ot =>
          p.actions.foldl
            (fun perms action =>
              permExtend perms (ot.app_label ++ "." ++ action ++ "_" ++ ot.model)
                p.list_constraints)
            perms)
        perms)
    []

/-- Embedding of `ObjectPermissionBackend.get_all_permissions`: the
permission map, the user carrying the possibly repopulated cache, and
the number of grant-store queries the call issued. A cache that is
absent or falsy — the empty map is falsy in Python — is repopulated. -/
def get_all_permissions (db : Database) (u : User) : PermMap × User × Nat :=
  if !u.is_active || u.is_anonymous then ([], u, 0)
  else
    match u.object_perm_cache with
    | some m =>
      if m.isEmpty then
        let m2 := get_object_permissions db u
        (m2, { u with object_perm_cache := some m2 }, 1)
      else (m, u, 0)
    | none =>
      let m2 := get_object_permissions db u
      (m2, { u with object_perm_cache := some m2 }, 1)

/-- An in-memory model instance: its content type and its current
(not necessarily persisted) attribute values. -/
structure Instance where
  ctype : ContentType
  row : Rec
deriving DecidableEq

/-- The `ValueError`s `has_perm` can raise: a malformed permission
name (from `resolve_perm`) or a permission whose encoded type differs
from the instance's model. -/
inductive AuthError where
  | invalidName (perm : String)
  | invalidPermForModel (perm : String) (ct : ContentType)
deriving DecidableEq

/-- Embedding of `ObjectPermissionBackend.has_perm`: resolve the name
first, gate on active and anonymous, short-circuit superusers, look
the name up in the user's permission map, accept type-level queries,
check the instance's model label, and finally test whether the stored
row with the instance's pk satisfies the compiled constraint filter.
The result carries the updated user and the store-query count. -/
def has_perm (db : Database) (u : User) (perm : String) (obj : Option Instance) :
    Except AuthError (Bool × User × Nat) :=
  match resolve_perm perm with
  | none => .error (.invalidName perm)
  | some (app_label, _action, model_name) =>
    if !u.is_active || u.is_anonymous then .ok (false, u, 0)
    else if u.is_superuser then .ok (true, u, 0)
    else
      let res := get_all_permissions db u
      if !(permHasKey res.1 perm) then .ok (false, res.2.1, res.2.2)
      else
        match obj with
        | none => .ok (true, res.2.1, res.2.2)
        | some inst =>
          if inst.ctype.app_label ++ "." ++ inst.ctype.model != app_label ++ "." ++ model_name then
            .error (.invalidPermForModel perm inst.ctype)
          else
            let q := get_filter_from_constraints ((permLookup res.1 perm).getD [])
            .ok ((tableOf db inst.ctype).any (fun r => r.pk == inst.row.pk && qMatches r q),
              res.2.1, res.2.2)

/-- The shape of a restricted queryset, fixed when `restrict` runs:
unchanged for a superuser, empty for an unauthenticated user or a
missing permission entry, otherwise the compiled constraint filter.
The row set itself is produced lazily by `applyRestriction` against
whatever database state the queryset is evaluated on. -/
inductive Restriction where
  | all
  | nothing
  | byFilter (q : QFilter)
deriving DecidableEq

/-- Embedding of `RestrictedQuerySet.restrict` (`perms/querysets.py`).
The membership test calls `user.get_all_permissions()` — which may
populate the cache — and the filter is compiled from the cache entry
`user._object_perm_cache[perm_name]`. -/
def restrict (db : Database) (u : User) (ct : ContentType) (action : String) :
    Restriction × User :=
  let perm_name := get_perm_name ct action
  if u.is_superuser then (.all, u)
  else if !u.is_authenticated then (.nothing, u)
  else
    let res := get_all_permissions db u
    if !(permHasKey res.1 perm_name) then (.nothing, res.2.1)
    else
      (.byFilter (get_filter_from_constraints
        ((permLookup ((res.2.1).object_perm_cache.getD []) perm_name).getD [])),
       res.2.1)

/-- Evaluate a restriction against the current rows of the model table:
`self.filter(pk__in=self.model.objects.filter(qfilter))`. -/
def applyRestriction (t : List Rec) : Restriction → List Rec
  | .all => t
  | .nothing => []
  | .byFilter q =>
    let allowed_objects := t.filter (fun r => qMatches r q)
    t.filter (fun r => allowed_objects.any (fun a => a.pk == r.pk))

/-- The two `PermissionDenied` failures of `modify_object_safely`. -/
inductive Denied where
  | noPermission
  | revokesOwnAccess
deriving DecidableEq

/-- The observable outcome of `modify_object_safely`: the returned or
raised result, the database after commit or rollback, and the caller's
in-memory instance after the call. -/
structure ModifyOutcome where
  result : Except Denied Rec
  db : Database
  memObj : Rec

/-- One `setattr`: replace the attribute's value, keeping its slot. -/
def setField : List (String × Prim) → String → Prim → List (String × Prim)
  | [], f, v => [(f, v)]
  | kv :: rest, f, v => if kv.1 == f then (f, v) :: rest else kv :: setField rest f v

/-- The `setattr` loop over `update_dict.items()`. -/
def applyUpdates (r : Rec) (update_dict : List (String × Prim)) : Rec :=
  update_dict.foldl (fun r fv => { r with fields := setField r.fields fv.1 fv.2 }) r

/-- Write a row by primary key: update the matching row, appending the
row when no match exists. -/
def replaceByPk (t : List Rec) (r : Rec) : List Rec :=
  if t.any (fun x => x.pk == r.pk) then t.map (fun x => if x.pk == r.pk then r else x)
  else t ++ [r]

/-- `obj.save()`: persist the instance's current attribute values into
its model table. -/
def saveRec (db : Database) (ct : ContentType) (r : Rec) : Database :=
  { db with tables := db.tables.map (fun e => if e.1 == ct then (e.1, replaceByPk e.2 r) else e) }

/-- Embedding of `modify_object_safely` (`perms/utils.py`): evaluate
the change-restricted queryset on the stored state, fail without
mutating when the instance is not in it; otherwise apply the updates,
save inside a transaction, re-evaluate the same queryset on the saved
state and roll back — re-raising `PermissionDenied` — when the
instance dropped out. `memObj` is the caller's instance afterwards. -/
def modify_object_safely (db : Database) (obj : Instance) (user : User)
    (update_dict : List (String × Prim)) : ModifyOutcome :=
  let queryset := (restrict db user obj.ctype "change").1
  if !((applyRestriction (tableOf db obj.ctype) queryset).any (fun r => r.pk == obj.row.pk)) then
    { result := .error .noPermission, db := db, memObj := obj.row }
  else
    let obj2 := applyUpdates obj.row update_dict
    let db2 := saveRec db obj.ctype obj2
    if !((applyRestriction (tableOf db2 obj.ctype) queryset).any (fun r => r.pk == obj2.pk)) then
      { result := .error .revokesOwnAccess, db := db, memObj := obj2 }
    else
      { result := .ok obj2, db := db2, memObj := obj2 }

/-- Membership of the stored row with the given pk in the user's
restricted set for an action, evaluated on one database state. -/
def inRestricted (db : Database) (u : User) (ct : ContentType) (action : String) (pk : Nat) : Bool :=
  (applyRestriction (tableOf db ct) (restrict db u ct action).1).any (fun r => r.pk == pk)

/-- The boolean decision of a `has_perm` call, `none` when the call
raised. -/
def hpDecision : Except AuthError (Bool × User × Nat) → Option Bool
  | .ok x => some x.1
  | .error _ => none

/-- The truthy (non-null, non-empty) constraint maps of a list, in
order — the leaves the compiled filter ORs together. -/
def truthyMaps (cs : List (Option ConstraintMap)) : List ConstraintMap :=
  cs.filterMap (fun c => if constraintTruthy c then some (c.getD []) else none)

/-- Whether some non-empty constraint map of the sequence holds of the
row — the decision the specification ascribes to the compiled OR of
per-map ANDs. -/
def existsMatch (cs : List (Option ConstraintMap)) (r : Rec) : Bool :=
  cs.any (fun c => constraintTruthy c && mapHolds r (c.getD []))

/-! ### Concrete example data used by witnesses and counterexamples -/

/-- The `Location` content type of the `installs` app. -/
def exCtLoc : ContentType := ⟨"installs", "location"⟩

/-- An enabled grant of `view` on locations to user 7, with absent
(`null`) constraints — "unconstrained". -/
def exGrantNull : ObjectPermission :=
  ⟨1, "view all locations", true, [exCtLoc], [], [7], ["view"], .null⟩

/-- An enabled grant of `view` on locations to user 7 constrained to
rows with `name = "X"`. -/
def exGrantName : ObjectPermission :=
  ⟨2, "view location X", true, [exCtLoc], [], [7], ["view"],
    .array [some [("name", .prim (.str "X"))]]⟩

/-- A persisted location whose name matches no constraint of
`exGrantName`. -/
def exRowY : Rec := ⟨1, [("name", .str "Y")]⟩

/-- A store holding both grants and the one location row. -/
def exDbMerged : Database := ⟨[exGrantNull, exGrantName], [(exCtLoc, [exRowY])]⟩

/-- The same store with only the unconstrained grant. -/
def exDbSingle : Database := ⟨[exGrantNull], [(exCtLoc, [exRowY])]⟩

/-- User 7: active, authenticated, not a superuser, no cache yet. -/
def exUserMember : User := ⟨7, true, false, false, [], none⟩

/-- The location instance of `exRowY`. -/
def exInstY : Instance := ⟨exCtLoc, exRowY⟩

/-- A store with no grants and no rows. -/
def exDbEmpty : Database := ⟨[], []⟩

/-- An active authenticated user covered by no grant at all. -/
def exUserFresh : User := ⟨1, true, false, false, [], none⟩

/-- An active superuser. -/
def exSuper : User := ⟨2, true, false, true, [], none⟩

/-- The anonymous sentinel. -/
def exAnon : User := ⟨9, true, true, false, [], none⟩

/-- An enabled grant of `change` on locations to user 5, constrained to
names containing `"Test"` case-insensitively. -/
def exGrantChange : ObjectPermission :=
  ⟨1, "change Test locations", true, [exCtLoc], [], [5], ["change"],
    .array [some [("name__icontains", .prim (.str "Test"))]]⟩

/-- A persisted location matching `exGrantChange`, with a second
attribute. -/
def exRowTest : Rec := ⟨1, [("name", .str "Test A"), ("description", .str "d")]⟩

/-- Store for the safe-mutation scenarios. -/
def exDbChange : Database := ⟨[exGrantChange], [(exCtLoc, [exRowTest])]⟩

/-- User 5: active, authenticated, not a superuser. -/
def exUserChange : User := ⟨5, true, false, false, [], none⟩

/-- The in-memory instance of `exRowTest`. -/
def exInstTest : Instance := ⟨exCtLoc, exRowTest⟩

/-- Updates renaming the row out of its own grant while rewriting
`description` with its current stored value. -/
def exUpdMixed : List (String × Prim) := [("name", .str "B"), ("description", .str "d")]

/-- An update that keeps the row inside the grant. -/
def exUpdOk : List (String × Prim) := [("name", .str "New Test Name")]

/-! ### Lemmas about constraint compilation -/

lemma gffc_foldl (cs : List (Option ConstraintMap)) (q0 : QFilter) (b0 : Bool) :
    cs.foldl
      (fun params constraint =>
        if constraintTruthy constraint then (params.1 ++ [constraint.getD []], true)
        else params)
      (q0, b0)
    = (q0 ++ truthyMaps cs, b0 || cs.any constraintTruthy) := by
  induction cs generalizing q0 b0 with
  | nil => simp [truthyMaps]
  | cons c cs ih =>
    simp only [List.foldl_cons, truthyMaps, List.filterMap_cons, List.any_cons]
    by_cases h : constraintTruthy c
    · simp [h, ih, truthyMaps]
    · simp [h, ih, truthyMaps]

/-- Characterization of `get_filter_from_constraints`: the flat OR of
the truthy maps, or the empty `Q()` when no entry is truthy. -/
lemma gffc_eq (cs : List (Option ConstraintMap)) :
    get_filter_from_constraints cs
      = if cs.any constraintTruthy then truthyMaps cs else [] := by
  simp only [get_filter_from_constraints, gffc_foldl, List.nil_append, Bool.false_or]

lemma truthyMaps_ne_nil {cs : List (Option ConstraintMap)}
    (h : cs.any constraintTruthy = true) : truthyMaps cs ≠ [] := by
  induction cs with
  | nil => simp at h
  | cons c cs ih =>
    by_cases hc : constraintTruthy c
    · simp [truthyMaps, List.filterMap_cons, hc]
    · simp only [List.any_cons, Bool.or_eq_true] at h
      rcases h with h | h
      · exact absurd h hc
      · simpa [truthyMaps, List.filterMap_cons, hc] using ih h

lemma truthyMaps_cons_pos {c : Option ConstraintMap} {cs : List (Option ConstraintMap)}
    (hc : constraintTruthy c = true) :
    truthyMaps (c :: cs) = c.getD [] :: truthyMaps cs := by
  simp [truthyMaps, List.filterMap_cons, hc]

lemma truthyMaps_cons_neg {c : Option ConstraintMap} {cs : List (Option ConstraintMap)}
    (hc : constraintTruthy c = false) :
    truthyMaps (c :: cs) = truthyMaps cs := by
  simp [truthyMaps, List.filterMap_cons, hc]

lemma existsMatch_cons (c : Option ConstraintMap) (cs : List (Option ConstraintMap)) (r : Rec) :
    existsMatch (c :: cs) r
      = ((constraintTruthy c && mapHolds r (c.getD [])) || existsMatch cs r) := by
  simp [existsMatch, List.any_cons]

lemma any_truthyMaps (cs : List (Option ConstraintMap)) (r : Rec) :
    (truthyMaps cs).any (fun m => mapHolds r m) = existsMatch cs r := by
  induction cs with
  | nil => rfl
  | cons c cs ih =>
    cases hc : constraintTruthy c with
    | true =>
      rw [truthyMaps_cons_pos hc, List.any_cons, ih, existsMatch_cons, hc, Bool.true_and]
    | false =>
      rw [truthyMaps_cons_neg hc, ih, existsMatch_cons, hc, Bool.false_and, Bool.false_or]

lemma all_falsy_any {cs : List (Option ConstraintMap)}
    (h : cs.all (fun c => !constraintTruthy c) = true) :
    cs.any constraintTruthy = false := by
  induction cs with
  | nil => rfl
  | cons c cs ih =>
    simp only [List.all_cons, Bool.and_eq_true, Bool.not_eq_true'] at h
    simp [List.any_cons, h.1, ih h.2]

lemma compile_all_falsy {cs : List (Option ConstraintMap)}
    (h : cs.all (fun c => !constraintTruthy c) = true) :
    get_filter_from_constraints cs = [] := by
  rw [gffc_eq, all_falsy_any h]
  rfl

lemma truthyMaps_filter (cs : List (Option ConstraintMap)) :
    truthyMaps (cs.filter constraintTruthy) = truthyMaps cs := by
  induction cs with
  | nil => rfl
  | cons c cs ih =>
    cases hc : constraintTruthy c with
    | true =>
      rw [List.filter_cons_of_pos hc, truthyMaps_cons_pos hc, truthyMaps_cons_pos hc, ih]
    | false =>
      rw [List.filter_cons_of_neg (by simp [hc]), truthyMaps_cons_neg hc, ih]

lemma any_filter_truthy (cs : List (Option ConstraintMap)) :
    (cs.filter constraintTruthy).any constraintTruthy = cs.any constraintTruthy := by
  induction cs with
  | nil => rfl
  | cons c cs ih =>
    by_cases hc : constraintTruthy c
    · simp [List.filter_cons, hc, List.any_cons]
    · simp [List.filter_cons, hc, List.any_cons, ih]

/-- C5 (amended): for a sequence containing at least one non-empty
constraint map, the compiled predicate accepts a row exactly when some
non-empty map of the sequence has all of its conditions satisfied
(AND inside a map, OR across the sequence); a sequence with no
non-empty map compiles to the predicate accepting every row. -/
theorem C5_or_of_ands (cs : List (Option ConstraintMap)) (r : Rec) :
    (cs.any constraintTruthy = true →
      qMatches r (get_filter_from_constraints cs) = existsMatch cs r)
    ∧ (cs.any constraintTruthy = false →
      qMatches r (get_filter_from_constraints cs) = true) := by
  constructor
  · intro h
    rw [gffc_eq, if_pos h]
    have hne := truthyMaps_ne_nil h
    have hie : (truthyMaps cs).isEmpty = false := by
      cases h2 : truthyMaps cs with
      | nil => exact absurd h2 hne
      | cons a l => rfl
    rw [qMatches, hie, Bool.false_or, any_truthyMaps]
  · intro h
    rw [gffc_eq, if_neg (by simp [h])]
    rfl

/-- C5 counterexample: the sequence `[null]` contains no non-empty
constraint map — no map of it is satisfied by any row — yet the
compiled predicate accepts every row, here the bare row `⟨1, []⟩`.
The claimed equivalence fails on sequences with no non-empty map. -/
theorem C5_counterexample :
    qMatches ⟨1, []⟩ (get_filter_from_constraints [none]) = true
    ∧ existsMatch [none] ⟨1, []⟩ = false :=
  ⟨rfl, rfl⟩

/-- C6: removing the null and empty entries of a constraint sequence
leaves the compiled filter unchanged, and a sequence with no non-empty
entry compiles to the empty `Q()`, the predicate accepting every
row. -/
theorem C6_null_noop :
    (∀ cs : List (Option ConstraintMap),
      get_filter_from_constraints (cs.filter constraintTruthy)
        = get_filter_from_constraints cs)
    ∧ (∀ cs : List (Option ConstraintMap),
      cs.all (fun c => !constraintTruthy c) = true →
      get_filter_from_constraints cs = []
        ∧ ∀ r : Rec, qMatches r (get_filter_from_constraints cs) = true) := by
  constructor
  · intro cs
    rw [gffc_eq, gffc_eq, truthyMaps_filter, any_filter_truthy]
  · intro cs h
    refine ⟨compile_all_falsy h, fun r => ?_⟩
    rw [compile_all_falsy h]
    rfl

/-- C6 witness: the specification's own example `[{a:1}, null, {b:2}]`
compiles as `[{a:1},{b:2}]` does, and `[null, {}]` compiles to the
empty, always-true filter. -/
theorem C6_null_noop_witness :
    get_filter_from_constraints
        (List.filter constraintTruthy
          [some [("a", .prim (.int 1))], none, some [("b", .prim (.int 2))]])
      = get_filter_from_constraints
          [some [("a", .prim (.int 1))], none, some [("b", .prim (.int 2))]]
    ∧ get_filter_from_constraints [none, some []] = [] :=
  ⟨C6_null_noop.1 [some [("a", .prim (.int 1))], none, some [("b", .prim (.int 2))]],
   (C6_null_noop.2 [none, some []] (by decide)).1⟩

/-! ### Lemmas about the permission-name scheme -/

lemma splitCh_ne_nil (c : Char) (l : List Char) : splitCh c l ≠ [] := by
  cases l with
  | nil => simp [splitCh]
  | cons x xs =>
    rcases h : splitCh c xs with _ | ⟨r, rs⟩
    · simp [splitCh, h]
    · by_cases hx : x = c <;> simp [splitCh, h, hx]

lemma splitCh_not_mem {c : Char} {l : List Char} (h : c ∉ l) : splitCh c l = [l] := by
  induction l with
  | nil => rfl
  | cons x xs ih =>
    have hx : ¬ x = c := fun e => h (by simp [e])
    have hxs : c ∉ xs := fun m => h (List.mem_cons_of_mem _ m)
    simp [splitCh, ih hxs, hx]

lemma splitCh_append {c : Char} {l₁ : List Char} (l₂ : List Char) (h : c ∉ l₁) :
    splitCh c (l₁ ++ c :: l₂) = l₁ :: splitCh c l₂ := by
  induction l₁ with
  | nil =>
    rcases hs : splitCh c l₂ with _ | ⟨r, rs⟩
    · exact absurd hs (splitCh_ne_nil c l₂)
    · simp [splitCh, hs]
  | cons x xs ih =>
    have hx : ¬ x = c := fun e => h (by simp [e])
    have hxs : c ∉ xs := fun m => h (List.mem_cons_of_mem _ m)
    simp [splitCh, ih hxs, hx]

lemma splitFirst_append {c : Char} {a : List Char} (b : List Char) (h : c ∉ a) :
    splitFirst c (a ++ c :: b) = some (a, b) := by
  induction a with
  | nil => simp [splitFirst]
  | cons x xs ih =>
    have hx : ¬ x = c := fun e => h (by simp [e])
    have hxs : c ∉ xs := fun m => h (List.mem_cons_of_mem _ m)
    simp [splitFirst, hx, ih hxs]

lemma str_data_append (s t : String) : (s ++ t).data = s.data ++ t.data := rfl

lemma dot_data : ".".data = ['.'] := rfl

lemma und_data : "_".data = ['_'] := rfl

lemma get_perm_name_data (a m act : String) :
    (get_perm_name ⟨a, m⟩ act).data = a.data ++ '.' :: (act.data ++ '_' :: m.data) := by
  show (a ++ "." ++ act ++ "_" ++ m).data = _
  simp [str_data_append, dot_data, und_data, List.append_assoc]

lemma resolve_perm_name_aux {a act m : String}
    (h1 : '.' ∉ a.data) (h2 : '.' ∉ act.data) (h3 : '_' ∉ act.data) (h4 : '.' ∉ m.data) :
    resolve_perm (get_perm_name ⟨a, m⟩ act) = some (a, act, m) := by
  have hrest : '.' ∉ act.data ++ '_' :: m.data := by
    intro hm
    rcases List.mem_append.mp hm with hm | hm
    · exact h2 hm
    · rcases List.mem_cons.mp hm with hm | hm
      · exact absurd hm (by decide)
      · exact h4 hm
  simp only [resolve_perm, get_perm_name_data, splitCh_append _ h1, splitCh_not_mem hrest,
    splitFirst_append _ h3]

/-- C4 (amended): permission-name construction and resolution round-trip
for the names the catalog can actually key on — app label, action and
model name free of `"."` and the action free of `"_"`: resolving the
constructed name yields back exactly the original triple, and
construction is injective on such (type, action) pairs. With a free-form
action containing `"_"` (or a component containing `"."`) the round trip
and injectivity both fail, as the counterexample shows. -/
theorem C4_name_roundtrip :
    (∀ a act m : String,
      '.' ∉ a.data → '.' ∉ act.data → '_' ∉ act.data → '.' ∉ m.data →
      resolve_perm (get_perm_name ⟨a, m⟩ act) = some (a, act, m))
    ∧ (∀ a act m a2 act2 m2 : String,
      '.' ∉ a.data → '.' ∉ act.data → '_' ∉ act.data → '.' ∉ m.data →
      '.' ∉ a2.data → '.' ∉ act2.data → '_' ∉ act2.data → '.' ∉ m2.data →
      get_perm_name ⟨a, m⟩ act = get_perm_name ⟨a2, m2⟩ act2 →
      a = a2 ∧ act = act2 ∧ m = m2) := by
  constructor
  · intro a act m h1 h2 h3 h4
    exact resolve_perm_name_aux h1 h2 h3 h4
  · intro a act m a2 act2 m2 h1 h2 h3 h4 g1 g2 g3 g4 heq
    have e1 := resolve_perm_name_aux h1 h2 h3 h4
    have e2 := resolve_perm_name_aux g1 g2 g3 g4
    rw [heq, e2] at e1
    simp only [Option.some.injEq, Prod.mk.injEq] at e1
    exact ⟨e1.1.symm, e1.2.1.symm, e1.2.2.symm⟩

/-- C4 counterexample: for the free-form action `"add_extra"` on model
`install`, resolving the constructed name yields
`("installs", "add", "extra_install")`, not the original triple; and the
distinct (type, action) pairs `(install, add_extra)` and
`(extra_install, add)` construct the same permission name, refuting
injectivity over arbitrary action strings. -/
theorem C4_counterexample :
    resolve_perm (get_perm_name ⟨"installs", "install"⟩ "add_extra")
        = some ("installs", "add", "extra_install")
    ∧ ("installs", "add", "extra_install")
        ≠ (("installs", "add_extra", "install") : String × String × String)
    ∧ get_perm_name ⟨"installs", "install"⟩ "add_extra"
        = get_perm_name ⟨"installs", "extra_install"⟩ "add"
    ∧ (ContentType.mk "installs" "install", "add_extra")
        ≠ (ContentType.mk "installs" "extra_install", "add") :=
  ⟨by decide, by decide, rfl, by decide⟩

/-- C4 witness: the round trip at the repository's own permission name
`installs.view_location`. -/
theorem C4_name_roundtrip_witness :
    resolve_perm (get_perm_name ⟨"installs", "location"⟩ "view")
      = some ("installs", "view", "location") :=
  C4_name_roundtrip.1 "installs" "view" "location"
    (by decide) (by decide) (by decide) (by decide)

/-! ### The decision gates of has_perm -/

/-- C10: `has_perm` resolves the permission-name string before any
principal check — a malformed name (not of the `app_label.action_model`
shape) raises the invalid-name error for every principal, anonymous,
inactive and superuser alike, and for every instance argument. -/
theorem C10_resolve_before_principal (db : Database) (u : User) (perm : String)
    (obj : Option Instance) (h : resolve_perm perm = none) :
    has_perm db u perm obj = .error (.invalidName perm) := by
  simp [has_perm, h]

/-- C10 witness: the malformed name `installs.view` (no underscore)
raises even for a superuser principal. -/
theorem C10_resolve_before_principal_witness :
    has_perm exDbMerged exSuper "installs.view" none
      = .error (.invalidName "installs.view") :=
  C10_resolve_before_principal exDbMerged exSuper "installs.view" none (by decide)

/-- C7: for an active, non-anonymous superuser and a well-formed
permission name, `has_perm` is true for every store, every name and
every instance (or none), with the user untouched and zero grant-store
queries — no grant evaluation is performed. -/
theorem C7_superuser_true (db : Database) (u : User) (perm : String)
    (t : String × String × String) (obj : Option Instance)
    (hres : resolve_perm perm = some t)
    (ha : u.is_active = true) (han : u.is_anonymous = false)
    (hsu : u.is_superuser = true) :
    has_perm db u perm obj = .ok (true, u, 0) := by
  obtain ⟨app, act, md⟩ := t
  simp [has_perm, hres, ha, han, hsu]

/-- C7 witness: the superuser is granted a location instance in a store
whose grants never mention the superuser. -/
theorem C7_superuser_true_witness :
    has_perm exDbMerged exSuper "installs.view_location" (some exInstY)
      = .ok (true, exSuper, 0) :=
  C7_superuser_true exDbMerged exSuper "installs.view_location"
    ("installs", "view", "location") (some exInstY) (by decide) rfl rfl rfl

/-- C8: for an inactive or anonymous principal and a well-formed
permission name, `has_perm` is false for every store — whatever grants
exist — every name and every instance (or none), with zero grant-store
queries. -/
theorem C8_inactive_anonymous_false (db : Database) (u : User) (perm : String)
    (t : String × String × String) (obj : Option Instance)
    (hres : resolve_perm perm = some t)
    (h : u.is_active = false ∨ u.is_anonymous = true) :
    has_perm db u perm obj = .ok (false, u, 0) := by
  obtain ⟨app, act, md⟩ := t
  rcases h with h | h <;> simp [has_perm, hres, h]

/-- C8 witness: the anonymous principal is denied a location instance in
a store that does hold enabled grants for it to miss. -/
theorem C8_inactive_anonymous_false_witness :
    has_perm exDbMerged exAnon "installs.view_location" (some exInstY)
      = .ok (false, exAnon, 0) :=
  C8_inactive_anonymous_false exDbMerged exAnon "installs.view_location"
    ("installs", "view", "location") (some exInstY) (by decide) (Or.inr rfl)

/-- C1 (amended): for an active, authenticated, non-superuser principal
whose resolved permission map has an entry for the (well-formed)
permission name consisting only of empty or absent constraint maps —
as an unconstrained covering grant contributes, when no covering grant
adds a non-empty map — `has_perm` is true for every persisted instance
of the matching type. When another enabled grant does contribute a
non-empty map to the same name, the empty and absent entries are
skipped by compilation and instances matching no non-empty map are
denied, as the counterexample shows. -/
theorem C1_unconstrained_grants_all (db : Database) (u : User) (perm : String)
    (t : String × String × String) (inst : Instance)
    (hres : resolve_perm perm = some t)
    (ha : u.is_active = true) (han : u.is_anonymous = false) (hsu : u.is_superuser = false)
    (hkey : permHasKey (get_all_permissions db u).1 perm = true)
    (hfalsy : ((permLookup (get_all_permissions db u).1 perm).getD []).all
        (fun c => !constraintTruthy c) = true)
    (hlabel : inst.ctype.app_label ++ "." ++ inst.ctype.model = t.1 ++ "." ++ t.2.2)
    (hpers : (tableOf db inst.ctype).any (fun r => r.pk == inst.row.pk) = true) :
    has_perm db u perm (some inst)
      = .ok (true, (get_all_permissions db u).2.1, (get_all_permissions db u).2.2) := by
  obtain ⟨app, act, md⟩ := t
  simp only [has_perm, hres, ha, han, hsu, hkey, compile_all_falsy hfalsy]
  simp only at hlabel
  simp [hlabel, qMatches, hpers]

/-- C1 witness: with only the unconstrained grant in the store, user 7
is granted the persisted location `exRowY`. -/
theorem C1_unconstrained_grants_all_witness :
    has_perm exDbSingle exUserMember "installs.view_location" (some exInstY)
      = .ok (true, (get_all_permissions exDbSingle exUserMember).2.1,
          (get_all_permissions exDbSingle exUserMember).2.2) :=
  C1_unconstrained_grants_all exDbSingle exUserMember "installs.view_location"
    ("installs", "view", "location") exInstY (by decide) rfl rfl rfl
    (by decide) (by decide) rfl (by decide)

/-- C1 counterexample: user 7 is covered by the enabled grant
`exGrantNull`, whose constraint sequence is absent (`null`, listing as
`[none]`), for the covered pair (location, view); the location row
`exRowY` is persisted; yet — because the second covering grant
`exGrantName` contributes the non-empty map `{name: "X"}` to the same
permission name — `has_perm` denies the instance, so the merged
constraint lists do not grant every instance. -/
theorem C1_counterexample :
    permCovers exUserMember exGrantNull = true
    ∧ exGrantNull.enabled = true
    ∧ exGrantNull.list_constraints = [none]
    ∧ exGrantNull.object_types = [exCtLoc]
    ∧ exGrantNull.actions = ["view"]
    ∧ get_perm_name exCtLoc "view" = "installs.view_location"
    ∧ (tableOf exDbMerged exCtLoc).any (fun r => r.pk == exInstY.row.pk) = true
    ∧ hpDecision (has_perm exDbMerged exUserMember "installs.view_location" (some exInstY))
        = some false := by
  refine ⟨rfl, rfl, rfl, rfl, rfl, rfl, by decide, by decide⟩

/-! ### The permission cache -/

lemma gap_cold (db : Database) (u : User)
    (hcond : (!u.is_active || u.is_anonymous) = false)
    (hc : u.object_perm_cache = none) :
    get_all_permissions db u
      = (get_object_permissions db u,
         { u with object_perm_cache := some (get_object_permissions db u) }, 1) := by
  simp [get_all_permissions, hcond, hc]

lemma gap_empty (db : Database) (u : User) (m : PermMap)
    (hcond : (!u.is_active || u.is_anonymous) = false)
    (hc : u.object_perm_cache = some m) (hm : m.isEmpty = true) :
    get_all_permissions db u
      = (get_object_permissions db u,
         { u with object_perm_cache := some (get_object_permissions db u) }, 1) := by
  simp [get_all_permissions, hcond, hc, hm]

lemma gap_warm (db : Database) (u : User) (m : PermMap)
    (hcond : (!u.is_active || u.is_anonymous) = false)
    (hc : u.object_perm_cache = some m) (hm : m.isEmpty = false) :
    get_all_permissions db u = (m, u, 0) := by
  simp [get_all_permissions, hcond, hc, hm]

/-- C2 (amended): for an active, non-anonymous principal, once a call
has computed and cached a non-empty permission map, a subsequent call
on the resulting principal returns that cached map, unchanged, with
zero grant-store queries; but when the computed map is empty — a
principal with zero applicable grants — the empty cache is
indistinguishable from an absent one, and every subsequent call issues
a grant-store query again. -/
theorem C2_cache_no_requery (db : Database) (u : User)
    (ha : u.is_active = true) (han : u.is_anonymous = false) :
    ((get_all_permissions db u).1 ≠ [] →
      get_all_permissions db (get_all_permissions db u).2.1
        = ((get_all_permissions db u).1, (get_all_permissions db u).2.1, 0))
    ∧ ((get_all_permissions db u).1 = [] →
      (get_all_permissions db (get_all_permissions db u).2.1).2.2 = 1) := by
  have hcond : (!u.is_active || u.is_anonymous) = false := by rw [ha, han]; rfl
  rcases hc : u.object_perm_cache with _ | m
  · rw [gap_cold db u hcond hc]
    dsimp only
    constructor
    · intro hne
      have hm : (get_object_permissions db u).isEmpty = false := by
        cases h2 : get_object_permissions db u with
        | nil => exact absurd h2 hne
        | cons a l => rfl
      exact gap_warm db _ (get_object_permissions db u) hcond rfl hm
    · intro he
      have hm : (get_object_permissions db u).isEmpty = true := by rw [he]; rfl
      rw [gap_empty db { u with object_perm_cache := some (get_object_permissions db u) }
        (get_object_permissions db u) hcond rfl hm]
  · cases hm : m.isEmpty with
    | true =>
      rw [gap_empty db u m hcond hc hm]
      dsimp only
      constructor
      · intro hne
        have hm2 : (get_object_permissions db u).isEmpty = false := by
          cases h2 : get_object_permissions db u with
          | nil => exact absurd h2 hne
          | cons a l => rfl
        exact gap_warm db _ (get_object_permissions db u) hcond rfl hm2
      · intro he
        have hm2 : (get_object_permissions db u).isEmpty = true := by rw [he]; rfl
        rw [gap_empty db { u with object_perm_cache := some (get_object_permissions db u) }
          (get_object_permissions db u) hcond rfl hm2]
    | false =>
      rw [gap_warm db u m hcond hc hm]
      dsimp only
      constructor
      · intro _
        exact gap_warm db u m hcond hc hm
      · intro he
        rw [he] at hm
        simp at hm

/-- C2 counterexample: an active, authenticated principal with zero
applicable grants computes the empty permission map; because the empty
dict is falsy, the cache test treats "computed, empty" as "not yet
computed" and the second call issues a grant-store query again
(count 1), contradicting the claim that no further query is issued. -/
theorem C2_counterexample :
    (get_all_permissions exDbEmpty exUserFresh).1 = []
    ∧ (get_all_permissions exDbEmpty exUserFresh).2.2 = 1
    ∧ (get_all_permissions exDbEmpty
        (get_all_permissions exDbEmpty exUserFresh).2.1).2.2 = 1 :=
  ⟨rfl, rfl, rfl⟩

/-- C2 witness: user 7 has a covering grant, so the first call computes
a non-empty map and the second call returns it from the cache without a
store query. -/
theorem C2_cache_no_requery_witness :
    get_all_permissions exDbMerged (get_all_permissions exDbMerged exUserMember).2.1
      = ((get_all_permissions exDbMerged exUserMember).1,
         (get_all_permissions exDbMerged exUserMember).2.1, 0) :=
  (C2_cache_no_requery exDbMerged exUserMember rfl rfl).1 (by decide)

/-! ### Safe mutation -/

lemma restrict_saveRec (db : Database) (ct : ContentType) (r : Rec) (u : User)
    (ct2 : ContentType) (a : String) :
    restrict (saveRec db ct r) u ct2 a = restrict db u ct2 a := rfl

lemma applyUpdates_pk (r : Rec) (update_dict : List (String × Prim)) :
    (applyUpdates r update_dict).pk = r.pk := by
  induction update_dict generalizing r with
  | nil => rfl
  | cons fv ud ih =>
    rw [applyUpdates, List.foldl_cons]
    exact ih _

/-- C3: `modify_object_safely` succeeds, persists the updates and
returns the updated instance exactly when the instance's row is in the
principal's change-restricted set both on the original store and on the
store with the updates applied; otherwise it fails with
`PermissionDenied` and the stored state is unchanged — the pre-check
failure without touching the instance, the post-check failure rolling
the transaction back. -/
theorem C3_modify_safely (db : Database) (obj : Instance) (user : User)
    (update_dict : List (String × Prim)) :
    (inRestricted db user obj.ctype "change" obj.row.pk = true →
      inRestricted (saveRec db obj.ctype (applyUpdates obj.row update_dict)) user obj.ctype
          "change" obj.row.pk = true →
      modify_object_safely db obj user update_dict
        = ⟨.ok (applyUpdates obj.row update_dict),
           saveRec db obj.ctype (applyUpdates obj.row update_dict),
           applyUpdates obj.row update_dict⟩)
    ∧ (inRestricted db user obj.ctype "change" obj.row.pk = false →
      modify_object_safely db obj user update_dict = ⟨.error .noPermission, db, obj.row⟩)
    ∧ (inRestricted db user obj.ctype "change" obj.row.pk = true →
      inRestricted (saveRec db obj.ctype (applyUpdates obj.row update_dict)) user obj.ctype
          "change" obj.row.pk = false →
      modify_object_safely db obj user update_dict
        = ⟨.error .revokesOwnAccess, db, applyUpdates obj.row update_dict⟩) := by
  have hpost : inRestricted (saveRec db obj.ctype (applyUpdates obj.row update_dict)) user
      obj.ctype "change" obj.row.pk
      = (applyRestriction
          (tableOf (saveRec db obj.ctype (applyUpdates obj.row update_dict)) obj.ctype)
          (restrict db user obj.ctype "change").1).any
          (fun r => r.pk == (applyUpdates obj.row update_dict).pk) := by
    rw [inRestricted, restrict_saveRec, applyUpdates_pk]
  refine ⟨?_, ?_, ?_⟩
  · intro h1 h2
    rw [hpost] at h2
    rw [inRestricted] at h1
    simp [modify_object_safely, h1, h2]
  · intro h1
    rw [inRestricted] at h1
    simp [modify_object_safely, h1]
  · intro h1 h2
    rw [hpost] at h2
    rw [inRestricted] at h1
    simp [modify_object_safely, h1, h2]

/-- C3 witness: a superuser renames the persisted location; the call
succeeds, the update is persisted and the updated instance returned. -/
theorem C3_modify_safely_witness :
    modify_object_safely exDbChange exInstTest exSuper exUpdOk
      = ⟨.ok (applyUpdates exInstTest.row exUpdOk),
         saveRec exDbChange exInstTest.ctype (applyUpdates exInstTest.row exUpdOk),
         applyUpdates exInstTest.row exUpdOk⟩ :=
  (C3_modify_safely exDbChange exInstTest exSuper exUpdOk).1 (by decide) (by decide)

/-- C9 (amended): when `modify_object_safely` fails at the
post-mutation recheck, the stored state is rolled back to the original
database while the caller's in-memory instance keeps the attempted
field updates — the `setattr`-applied values are not reverted — so an
updated field's in-memory value differs from its stored value exactly
when the written value differs from the stored one, not necessarily for
every updated field. -/
theorem C9_post_fail_frame (db : Database) (obj : Instance) (user : User)
    (update_dict : List (String × Prim))
    (h1 : inRestricted db user obj.ctype "change" obj.row.pk = true)
    (h2 : inRestricted (saveRec db obj.ctype (applyUpdates obj.row update_dict)) user
        obj.ctype "change" obj.row.pk = false) :
    (modify_object_safely db obj user update_dict).result = .error .revokesOwnAccess
    ∧ (modify_object_safely db obj user update_dict).db = db
    ∧ (modify_object_safely db obj user update_dict).memObj
        = applyUpdates obj.row update_dict := by
  have hpost : inRestricted (saveRec db obj.ctype (applyUpdates obj.row update_dict)) user
      obj.ctype "change" obj.row.pk
      = (applyRestriction
          (tableOf (saveRec db obj.ctype (applyUpdates obj.row update_dict)) obj.ctype)
          (restrict db user obj.ctype "change").1).any
          (fun r => r.pk == (applyUpdates obj.row update_dict).pk) := by
    rw [inRestricted, restrict_saveRec, applyUpdates_pk]
  rw [hpost] at h2
  rw [inRestricted] at h1
  refine ⟨?_, ?_, ?_⟩ <;> simp [modify_object_safely, h1, h2]

/-- C9 witness: the mixed update renames the row out of its own grant;
the call fails at the recheck, the store is rolled back, and the
in-memory instance keeps both attempted updates. -/
theorem C9_post_fail_frame_witness :
    (modify_object_safely exDbChange exInstTest exUserChange exUpdMixed).result
        = .error .revokesOwnAccess
    ∧ (modify_object_safely exDbChange exInstTest exUserChange exUpdMixed).db = exDbChange
    ∧ (modify_object_safely exDbChange exInstTest exUserChange exUpdMixed).memObj
        = applyUpdates exInstTest.row exUpdMixed :=
  C9_post_fail_frame exDbChange exInstTest exUserChange exUpdMixed (by decide) (by decide)

/-- C9 counterexample: a recheck failure whose update dict rewrote
`description` with its stored value `"d"`: the call fails and rolls
back, yet the updated field `description` is identical in the returned
in-memory instance and in the stored row — the fields do not differ for
every updated field. -/
theorem C9_counterexample :
    (modify_object_safely exDbChange exInstTest exUserChange exUpdMixed).result
        = .error .revokesOwnAccess
    ∧ ("description", Prim.str "d") ∈ exUpdMixed
    ∧ lookupField (modify_object_safely exDbChange exInstTest exUserChange exUpdMixed).memObj
        "description" = some (.str "d")
    ∧ tableOf (modify_object_safely exDbChange exInstTest exUserChange exUpdMixed).db exCtLoc
        = [exRowTest]
    ∧ lookupField exRowTest "description" = some (.str "d") := by
  refine ⟨rfl, by decide, rfl, rfl, rfl⟩

/-- C5 witness: on the sequence `[{a:1},{b:2}]` — which contains a
non-empty map — the compiled predicate agrees on the row `{a:1}` with
the existence of a satisfied non-empty map. -/
theorem C5_or_of_ands_witness :
    qMatches ⟨1, [("a", .int 1)]⟩
        (get_filter_from_constraints
          [some [("a", .prim (.int 1))], some [("b", .prim (.int 2))]])
      = existsMatch [some [("a", .prim (.int 1))], some [("b", .prim (.int 2))]]
          ⟨1, [("a", .int 1)]⟩ :=
  (C5_or_of_ands [some [("a", .prim (.int 1))], some [("b", .prim (.int 2))]]
    ⟨1, [("a", .int 1)]⟩).1 (by decide)
